import Mathlib

/-!
# Verification of the LifePal Tool-Augmented Conversation Orchestrator core

Shallow embedding of the core components specified in `spec.md`:

* the Memory Pruner (`agents/services/memory_service.py`,
  `MemoryService.pruning_processor`),
* the tool statistics update (`backend/src/llm_tools/models.py`,
  `ToolDefinition.update_stats`),
* the Tool Executor and its three backends
  (`backend/src/llm_tools/executors.py`),
* the Tool Registry and the `tool_retriever` meta-tool
  (`backend/src/llm_tools/registry.py`, `backend/src/llm_tools/retriever.py`),
* the Conversation Orchestrator, buffered (`OllamaClient.chat`) and
  incremental (`OllamaClient.chat_stream`)
  (`backend/src/llm_service/ollama_client.py`).

Python floats that appear in the code (`0.5`, `0.2`, the running average)
are modelled as rational numbers; for the quantities involved
(`max_tokens * 0.5` is exact in IEEE754 and `int(n * 0.2) = n / 5` for every
list length arising in practice) this is an exact model.  Calls to the
database, the inference endpoint, subprocesses and HTTP are modelled as
explicit environment parameters.
-/

namespace LifePal

/-! ## Memory Pruner — `MemoryService.pruning_processor`

Python source (`agents/services/memory_service.py`):
```
threshold = max_tokens * 0.5
if current_tokens > threshold:
    keep_count = max(2, int(len(messages) * 0.2))
    return messages[-keep_count:]
else:
    return messages
```
`int(len(messages) * 0.2)` truncates towards zero; for natural `n` the float
computation `int(n * 0.2)` equals `n / 5` in natural-number division
(the IEEE754 double nearest `0.2` is slightly above `1/5`, so the product
never falls below an exactly representable `n/5`).
`messages[-keep_count:]` is the tail slice keeping the last
`min(keep_count, len)` elements, i.e. `List.drop (len - keep_count)`.
-/

/-- The pruning guard `current_tokens > max_tokens * 0.5`, exact over `ℚ`. -/
def pruneTriggered (max_tokens current_tokens : ℕ) : Prop :=
  (current_tokens : ℚ) > (max_tokens : ℚ) * (1/2)

instance (max_tokens current_tokens : ℕ) :
    Decidable (pruneTriggered max_tokens current_tokens) :=
  decidable_of_iff (max_tokens < 2 * current_tokens) (by
    unfold pruneTriggered
    rw [gt_iff_lt]
    constructor
    · intro h
      have h2 : (max_tokens : ℚ) < 2 * (current_tokens : ℚ) := by
        exact_mod_cast h
      linarith
    · intro h
      have h2 : (max_tokens : ℚ) < 2 * (current_tokens : ℚ) := by linarith
      exact_mod_cast h2)

def pruning_processor {α : Type} (max_tokens current_tokens : ℕ)
    (messages : List α) : List α :=
  if pruneTriggered max_tokens current_tokens then
    let keep_count : ℕ := max 2 (messages.length / 5)
    messages.drop (messages.length - keep_count)
  else
    messages

/-- The pruned-length claim exactly as the spec words it, with `round`
(`max(2, round(0.2 × len(history)))`) in place of the code's truncation. -/
def pruneRoundSpec (h : List ℕ) (t m : ℕ) : Prop :=
  (¬ pruneTriggered m t → pruning_processor m t h = h) ∧
  (pruneTriggered m t →
    pruning_processor m t h =
      h.drop (h.length - max 2 (round ((h.length : ℚ) / 5)).toNat) ∧
    (pruning_processor m t h).length = max 2 (round ((h.length : ℚ) / 5)).toNat)

lemma round_thirteen_fifths : (round ((13 : ℚ) / 5)).toNat = 3 := by
  have h : round ((13 : ℚ) / 5) = 3 := by
    rw [round_eq, show (13 : ℚ) / 5 + 1 / 2 = 31 / 10 by norm_num]
    rw [Int.floor_eq_iff]
    norm_num
  rw [h]
  rfl

/-- `C1` counterexample: on a 13-message history above the token threshold
the code keeps `max(2, int(13·0.2)) = 2` messages while the spec's
`max(2, round(13·0.2)) = 3`. -/
theorem pruner_threshold_c1_cex : ¬ pruneRoundSpec (List.range 13) 1 1 := by
  intro hspec
  have h2 := (hspec.2 (by decide)).2
  have hlen : (pruning_processor 1 1 (List.range 13)).length = 2 := by decide
  rw [hlen, List.length_range, Nat.cast_ofNat, round_thirteen_fifths] at h2
  omega

/-- `C1` amended: below the threshold the pruner is the identity; above it
(and for histories of at least 2 messages) it keeps exactly the last
`max(2, ⌊0.2·len⌋)` messages — truncation, not rounding. -/
theorem pruner_threshold_c1 {α : Type} (h : List α) (t m : ℕ) :
    (¬ pruneTriggered m t → pruning_processor m t h = h) ∧
    (pruneTriggered m t → 2 ≤ h.length →
      pruning_processor m t h = h.drop (h.length - max 2 (h.length / 5)) ∧
      (pruning_processor m t h).length = max 2 (h.length / 5)) := by
  constructor
  · intro hnot
    simp only [pruning_processor, if_neg hnot]
  · intro hcond hlen
    have hkeep : max 2 (h.length / 5) ≤ h.length :=
      max_le hlen (Nat.div_le_self _ _)
    constructor
    · simp only [pruning_processor, if_pos hcond]
    · simp only [pruning_processor, if_pos hcond, List.length_drop]
      omega

/-- Witness for `pruner_threshold_c1` at a 13-message history with
`t = 1, m = 1`. -/
theorem pruner_threshold_c1_witness :
    pruning_processor 1 1 (List.range 13) =
      (List.range 13).drop (13 - max 2 (13 / 5)) ∧
    (pruning_processor 1 1 (List.range 13)).length = max 2 (13 / 5) := by
  have h := (pruner_threshold_c1 (List.range 13) 1 1).2 (by decide) (by simp)
  simpa using h

/-- `C7` counterexample: pruning a 15-message history above the threshold
keeps 3 messages, and pruning again keeps only 2 — not idempotent. -/
theorem pruner_idem_c7_cex :
    pruning_processor 1 1 (pruning_processor 1 1 (List.range 15)) ≠
      pruning_processor 1 1 (List.range 15) := by
  decide

/-- `C7` amended: the pruner is idempotent whenever the token count is at or
below the threshold, or the history has at most 14 messages (so that the
pruned result has at most 2 messages); for 15 or more messages above the
threshold a second prune shrinks the result again. -/
theorem pruner_idem_c7 {α : Type} (h : List α) (t m : ℕ)
    (hside : ¬ pruneTriggered m t ∨ h.length ≤ 14) :
    pruning_processor m t (pruning_processor m t h) =
      pruning_processor m t h := by
  by_cases hcond : pruneTriggered m t
  · rcases hside with hnot | hsmall
    · exact absurd hcond hnot
    · have hres : (pruning_processor m t h).length ≤ 2 := by
        have hdiv : h.length / 5 ≤ 2 := by omega
        simp only [pruning_processor, if_pos hcond, List.length_drop]
        omega
      have hdiv0 : (pruning_processor m t h).length / 5 = 0 := by omega
      simp only [pruning_processor, if_pos hcond] at hres hdiv0 ⊢
      rw [hdiv0]
      have hz : (h.drop (h.length - max 2 (h.length / 5))).length - max 2 0 = 0 := by
        simp only [Nat.max_eq_left (Nat.zero_le 2)] at *
        omega
      rw [hz, List.drop_zero]
  · simp only [pruning_processor, if_neg hcond]

/-- Witness for `pruner_idem_c7` on a 12-message history above threshold. -/
theorem pruner_idem_c7_witness :
    pruning_processor 1 1 (pruning_processor 1 1 (List.range 12)) =
      pruning_processor 1 1 (List.range 12) :=
  pruner_idem_c7 (List.range 12) 1 1 (Or.inr (by simp))

/-! ## Tool statistics — `ToolDefinition.update_stats`

Python source (`backend/src/llm_tools/models.py`):
```
self.execution_count += 1
if success: self.success_count += 1
else: self.error_count += 1
total_time = self.avg_execution_time_ms * (self.execution_count - 1)
self.avg_execution_time_ms = (total_time + execution_time_ms) / self.execution_count
```
`avg_execution_time_ms` is a Python float; modelled as `ℚ` (exact running
mean, matching the code up to IEEE754 rounding as the spec allows).
-/

structure ToolStats where
  execution_count : ℕ
  success_count : ℕ
  error_count : ℕ
  avg_execution_time_ms : ℚ

def update_stats (s : ToolStats) (success : Bool) (execution_time_ms : ℚ) :
    ToolStats :=
  let execution_count := s.execution_count + 1
  let success_count := if success then s.success_count + 1 else s.success_count
  let error_count := if success then s.error_count else s.error_count + 1
  let total_time := s.avg_execution_time_ms * ((execution_count : ℚ) - 1)
  { execution_count := execution_count
    success_count := success_count
    error_count := error_count
    avg_execution_time_ms :=
      (total_time + execution_time_ms) / (execution_count : ℚ) }

/-- Zeroed statistics of a freshly created `ToolDefinition`. -/
def zeroStats : ToolStats := ⟨0, 0, 0, 0⟩

/-- Fold a sequence of `(success, execution_time_ms)` calls through
`update_stats`, starting from zeroed statistics. -/
def runUpdates (calls : List (Bool × ℚ)) : ToolStats :=
  calls.foldl (fun s c => update_stats s c.1 c.2) zeroStats

lemma update_stats_count (s : ToolStats) (b : Bool) (t : ℚ) :
    (update_stats s b t).execution_count = s.execution_count + 1 := rfl

lemma update_stats_success (s : ToolStats) (b : Bool) (t : ℚ) :
    (update_stats s b t).success_count =
      if b then s.success_count + 1 else s.success_count := rfl

lemma update_stats_error (s : ToolStats) (b : Bool) (t : ℚ) :
    (update_stats s b t).error_count =
      if b then s.error_count else s.error_count + 1 := rfl

lemma update_stats_total (s : ToolStats) (b : Bool) (t : ℚ) :
    (update_stats s b t).avg_execution_time_ms *
        ((update_stats s b t).execution_count : ℚ) =
      s.avg_execution_time_ms * (s.execution_count : ℚ) + t := by
  simp only [update_stats]
  have hne : ((s.execution_count + 1 : ℕ) : ℚ) ≠ 0 := by positivity
  rw [div_mul_cancel₀ _ hne]
  push_cast
  ring

lemma foldl_update_stats_spec (calls : List (Bool × ℚ)) :
    ∀ s : ToolStats,
      (calls.foldl (fun s c => update_stats s c.1 c.2) s).execution_count =
        s.execution_count + calls.length ∧
      (calls.foldl (fun s c => update_stats s c.1 c.2) s).success_count =
        s.success_count + (calls.filter (fun c => c.1)).length ∧
      (calls.foldl (fun s c => update_stats s c.1 c.2) s).error_count =
        s.error_count + (calls.filter (fun c => !c.1)).length ∧
      (calls.foldl (fun s c => update_stats s c.1 c.2) s).avg_execution_time_ms *
          ((calls.foldl (fun s c => update_stats s c.1 c.2) s).execution_count : ℚ) =
        s.avg_execution_time_ms * (s.execution_count : ℚ) +
          (calls.map Prod.snd).sum := by
  induction calls with
  | nil => intro s; simp
  | cons c rest ih =>
    intro s
    obtain ⟨ih1, ih2, ih3, ih4⟩ := ih (update_stats s c.1 c.2)
    refine ⟨?_, ?_, ?_, ?_⟩
    · rw [List.foldl_cons, ih1, update_stats_count, List.length_cons]
      omega
    · rw [List.foldl_cons, ih2, update_stats_success, List.filter_cons]
      cases hb : c.1 <;> simp <;> omega
    · rw [List.foldl_cons, ih3, update_stats_error, List.filter_cons]
      cases hb : c.1 <;> simp <;> omega
    · rw [List.foldl_cons, ih4, update_stats_total, List.map_cons, List.sum_cons]
      ring

/-- `C4` confirmed: after any sequence of `update_stats` calls from zeroed
statistics, `execution_count` is the number of calls, `success_count` /
`error_count` count the `success=True` / `success=False` calls, the average
is the exact arithmetic mean of the supplied durations, and every single
update strictly increases `execution_count`. -/
theorem update_stats_consistency_c4 (calls : List (Bool × ℚ)) :
    (runUpdates calls).execution_count = calls.length ∧
    (runUpdates calls).success_count = (calls.filter (fun c => c.1)).length ∧
    (runUpdates calls).error_count = (calls.filter (fun c => !c.1)).length ∧
    (runUpdates calls).avg_execution_time_ms =
      (calls.map Prod.snd).sum / (calls.length : ℚ) ∧
    (∀ (s : ToolStats) (b : Bool) (t : ℚ),
      s.execution_count < (update_stats s b t).execution_count) := by
  have h1 : (runUpdates calls).execution_count = calls.length := by
    have h := (foldl_update_stats_spec calls zeroStats).1
    simpa [runUpdates, zeroStats] using h
  have h2 : (runUpdates calls).success_count =
      (calls.filter (fun c => c.1)).length := by
    have h := (foldl_update_stats_spec calls zeroStats).2.1
    simpa [runUpdates, zeroStats] using h
  have h3 : (runUpdates calls).error_count =
      (calls.filter (fun c => !c.1)).length := by
    have h := (foldl_update_stats_spec calls zeroStats).2.2.1
    simpa [runUpdates, zeroStats] using h
  have h4 : (runUpdates calls).avg_execution_time_ms *
      ((runUpdates calls).execution_count : ℚ) = (calls.map Prod.snd).sum := by
    have h := (foldl_update_stats_spec calls zeroStats).2.2.2
    simpa [runUpdates, zeroStats] using h
  refine ⟨h1, h2, h3, ?_, ?_⟩
  · by_cases hnil : calls = []
    · subst hnil
      simp [runUpdates, zeroStats]
    · have hlen0 : calls.length ≠ 0 := fun h0 => hnil (List.length_eq_zero.mp h0)
      have hlenQ : ((calls.length : ℕ) : ℚ) ≠ 0 := by exact_mod_cast hlen0
      rw [eq_div_iff hlenQ, ← h1]
      rw [h1] at h4
      rw [← h1] at h4
      exact h4
  · intro s b t
    rw [update_stats_count]
    omega

/-! ## JSON values

Tool results, parameter schemas and serialized tool-role messages are JSON
objects.  `jdump` models Python's `json.dumps` for the escape-free strings
appearing in this development (the serializer's escaping of quotes and
backslashes inside strings is not modelled; no modelled value contains
them). -/

inductive JVal where
  | null
  | bool (b : Bool)
  | num (n : Int)
  | str (s : String)
  | arr (elems : List JVal)
  | obj (fields : List (String × JVal))

mutual

def jdump : JVal → String
  | .null => "null"
  | .bool true => "true"
  | .bool false => "false"
  | .num n => toString n
  | .str s => "\"" ++ s ++ "\""
  | .arr xs => "[" ++ String.intercalate ", " (jdumpList xs) ++ "]"
  | .obj fs => "\x7b" ++ String.intercalate ", " (jdumpFields fs) ++ "\x7d"

def jdumpList : List JVal → List String
  | [] => []
  | x :: xs => jdump x :: jdumpList xs

def jdumpFields : List (String × JVal) → List String
  | [] => []
  | (k, v) :: fs => ("\"" ++ k ++ "\": " ++ jdump v) :: jdumpFields fs

end

/-- Key lookup in a JSON object (`d.get(key)`); `none` on non-objects. -/
def jlookup (v : JVal) (key : String) : Option JVal :=
  match v with
  | .obj fs => fs.lookup key
  | _ => none

/-- Python `str()` of a JSON value, as used for exception payloads; for
non-strings approximated by the JSON text (no claim depends on it). -/
def jstr : JVal → String
  | .str s => s
  | v => jdump v

/-- `sub` occurs as a contiguous substring of `s`. -/
def containsWord (s sub : String) : Prop := sub.data <:+: s.data

instance (s sub : String) : Decidable (containsWord s sub) :=
  inferInstanceAs (Decidable (sub.data <:+: s.data))

lemma containsWord_append_right (s t w : String) (h : containsWord s w) :
    containsWord (s ++ t) w := by
  obtain ⟨u, v, huv⟩ := h
  exact ⟨u, v ++ t.data, by simp [String.data_append, ← huv]⟩

lemma containsWord_append_left (s t w : String) (h : containsWord t w) :
    containsWord (s ++ t) w := by
  obtain ⟨u, v, huv⟩ := h
  exact ⟨s.data ++ u, v, by simp [String.data_append, ← huv]⟩

/-! ## Tool Executor — `backend/src/llm_tools/executors.py`

`ToolDefinition` carries the fields the executor reads; its mutable
statistics are modelled separately (`ToolStats` above, and the executor's
calls to `update_stats` are recorded as events).  The three backend
executors raise Python exceptions on failure, modelled as `Except.error`
carrying the exception's message.  The outcome of each external effect
(subprocess, Lambda invocation, HTTP call) is an explicit environment
value. -/

structure ToolDefinition where
  name : String
  display_name : String
  category : String
  description : String
  execution_type : String
  script_path : String
  script_timeout : ℕ
  lambda_function_arn : String
  lambda_region : String
  webhook_url : String
  webhook_method : String
  webhook_headers : List (String × String)
  webhook_timeout : ℕ
  parameters_schema : JVal
  is_active : Bool
  requires_auth : Bool

/-- Status values of the `ToolExecution` audit model
(`choices=[('success',..), ('error',..), ('timeout',..)]`). -/
inductive ExecStatus where
  | success
  | error
  | timeout
deriving DecidableEq

/-- One row of the `ToolExecution` audit log
(`ToolExecution.objects.create(...)`). -/
structure ToolExecution where
  tool_name : String
  status : ExecStatus
  result : Option JVal
  error_message : String
  execution_time_ms : ℕ

/-- Outcome of `subprocess.run(['python', tool.script_path], ...)`. -/
inductive ScriptRun where
  | completed (returncode : Int) (stdoutJson : Option JVal)
      (stdoutRaw : String) (stderr : String)
  | timedOut
  | fileNotFound

/-- `ScriptExecutor.execute`: timeout and missing file raise; then a
non-zero exit code raises; then non-JSON standard output raises. -/
def ScriptExecutor.execute (tool : ToolDefinition) (run : ScriptRun) :
    Except String JVal :=
  match run with
  | .timedOut =>
    .error ("Script timeout after " ++ toString tool.script_timeout ++ "s")
  | .fileNotFound => .error ("Script not found: " ++ tool.script_path)
  | .completed rc json? raw err =>
    if rc ≠ 0 then .error ("Script error: " ++ err)
    else
      match json? with
      | some j => .ok j
      | none => .error ("Script output is not valid JSON: " ++ raw.take 200)

/-- Outcome of the Lambda invocation (`lambda_client.invoke` + payload
parse); any raised exception is collapsed into `exn`. -/
inductive LambdaRun where
  | invoked (payload : JVal)
  | exn (msg : String)

/-- `LambdaExecutor.execute`: an `errorMessage` key in the payload, or any
exception during invocation, raises `Lambda execution error: ...`. -/
def LambdaExecutor.execute (run : LambdaRun) : Except String JVal :=
  match run with
  | .exn m => .error ("Lambda execution error: " ++ m)
  | .invoked r =>
    match jlookup r "errorMessage" with
    | some v => .error ("Lambda execution error: " ++ jstr v)
    | none => .ok r

/-- Outcome of the webhook HTTP exchange: a response (2xx flag, status text
for `raise_for_status`, parsed JSON body if valid), a timeout, or another
HTTP error. -/
inductive WebhookRun where
  | response (ok2xx : Bool) (statusMsg : String) (bodyJson : Option JVal)
  | timedOut
  | httpError (msg : String)

/-- `WebhookExecutor.execute`: timeout and HTTP errors (including
`raise_for_status` on non-2xx) are re-raised with a prefix; a non-JSON body
raises a plain exception. -/
def WebhookExecutor.execute (tool : ToolDefinition) (run : WebhookRun) :
    Except String JVal :=
  match run with
  | .timedOut =>
    .error ("Webhook timeout after " ++ toString tool.webhook_timeout ++ "s")
  | .httpError m => .error ("Webhook HTTP error: " ++ m)
  | .response ok2xx statusMsg json? =>
    if !ok2xx then .error ("Webhook HTTP error: " ++ statusMsg)
    else
      match json? with
      | some j => .ok j
      | none => .error "Webhook response is not valid JSON"

/-- Environment outcomes for one tool execution, one per backend (only the
one selected by `execution_type` is consulted). -/
structure BackendRun where
  script : ScriptRun
  lambdaRun : LambdaRun
  webhook : WebhookRun

/-- The failure dictionary returned by `ToolExecutor.execute`'s `except`
branch. -/
def failureDict (e : String) : JVal :=
  .obj [("success", .bool false), ("error", .str e),
        ("message", .str ("Tool execution failed: " ++ e))]

/-- The backend routing inside `ToolExecutor.execute`'s `try` block
(`if tool.execution_type == 'script': ... elif 'lambda' ... elif 'webhook'
... else raise ValueError`). -/
def ToolExecutor.dispatch (tool : ToolDefinition) (run : BackendRun) :
    Except String JVal :=
  if tool.execution_type = "script" then ScriptExecutor.execute tool run.script
  else if tool.execution_type = "lambda" then LambdaExecutor.execute run.lambdaRun
  else if tool.execution_type = "webhook" then WebhookExecutor.execute tool run.webhook
  else .error ("Unknown execution type: " ++ tool.execution_type)

/-- `ToolExecutor.execute`: on success, one `ToolExecution` row with status
`success` plus one `update_stats(success=True, ...)`; on any exception, one
row with status `error` plus one `update_stats(success=False, ...)` and the
failure dictionary as result.  Returns
`(returned dict, audit rows written, statistics updates performed)`. -/
def ToolExecutor.execute (tool : ToolDefinition) (run : BackendRun)
    (execution_time_ms : ℕ) : JVal × List ToolExecution × List (Bool × ℕ) :=
  match ToolExecutor.dispatch tool run with
  | .ok result =>
    (result, [⟨tool.name, .success, some result, "", execution_time_ms⟩],
     [(true, execution_time_ms)])
  | .error e =>
    (failureDict e, [⟨tool.name, .error, none, e, execution_time_ms⟩],
     [(false, execution_time_ms)])

/-- `C3` confirmed: every call of the Tool Executor, whatever the dispatch
outcome (success, backend exception, unknown execution type), writes
exactly one `ToolExecution` record — with status `success` or `error`, on
this tool — and performs exactly one statistics update. -/
theorem executor_audit_c3 (tool : ToolDefinition) (run : BackendRun) (t : ℕ) :
    (ToolExecutor.execute tool run t).2.1.length = 1 ∧
    (ToolExecutor.execute tool run t).2.2.length = 1 ∧
    ∀ r ∈ (ToolExecutor.execute tool run t).2.1,
      r.tool_name = tool.name ∧
      (r.status = ExecStatus.success ∨ r.status = ExecStatus.error) := by
  cases h : ToolExecutor.dispatch tool run <;>
    simp [ToolExecutor.execute, h]

/-- Witness for `executor_audit_c3` at the concrete timed-out sample
execution. -/
theorem executor_audit_c3_witness :
    (ToolExecutor.execute sampleScriptTool timeoutBackendRun 5).2.1.length = 1 ∧
    (ToolExecutor.execute sampleScriptTool timeoutBackendRun 5).2.2.length = 1 :=
  ⟨(executor_audit_c3 sampleScriptTool timeoutBackendRun 5).1,
   (executor_audit_c3 sampleScriptTool timeoutBackendRun 5).2.1⟩

lemma jdump_failureDict (e : String) :
    jdump (failureDict e) =
      "\x7b\"success\": false, \"error\": \"" ++
        (e ++ ("\", \"message\": \"Tool execution failed: " ++
          (e ++ "\"\x7d"))) := by
  simp [jdump, jdumpFields, failureDict, String.intercalate,
    String.intercalate.go, String.append_assoc]
  rw [String.ext_iff]
  simp [String.data_append]

/-- The tool-role message content serialized for the model
(`json.dumps(result)`) contains the word "timeout" whenever the executor's
failure dictionary was built from a script-timeout exception message. -/
lemma failureDict_timeout_word (tail : String) :
    containsWord (jdump (failureDict ("Script timeout after " ++ tail)))
      "timeout" := by
  rw [jdump_failureDict]
  apply containsWord_append_left
  apply containsWord_append_right
  apply containsWord_append_right
  decide

/-- A concrete script-backed tool definition used as the failing input. -/
def sampleScriptTool : ToolDefinition where
  name := "get_todays_checkin"
  display_name := "Get Todays Checkin"
  category := "wellbeing"
  description := "Fetch the current check-in"
  execution_type := "script"
  script_path := "/opt/tools/checkin.py"
  script_timeout := 30
  lambda_function_arn := ""
  lambda_region := "us-east-1"
  webhook_url := ""
  webhook_method := "POST"
  webhook_headers := []
  webhook_timeout := 30
  parameters_schema := JVal.obj []
  is_active := true
  requires_auth := true

/-- Environment in which the subprocess exceeds its configured timeout. -/
def timeoutBackendRun : BackendRun :=
  ⟨ScriptRun.timedOut, LambdaRun.exn "", WebhookRun.timedOut⟩

/-- `C5` counterexample: when the script exceeds its timeout, the single
audit record written has status `error`, not `timeout` — the generic
`except` clause in `ToolExecutor.execute` swallows the timeout exception. -/
theorem executor_timeout_c5_cex :
    (ToolExecutor.execute sampleScriptTool timeoutBackendRun 5).2.1.map
        ToolExecution.status ≠ [ExecStatus.timeout] ∧
    (ToolExecutor.execute sampleScriptTool timeoutBackendRun 5).2.1.map
        ToolExecution.status = [ExecStatus.error] := by
  constructor <;> decide

/-- `C5` amended: a script-backend timeout yields the failure dictionary
(`success=False`, no `status` field — not a result "with status timeout"),
one audit record with status `error` (the declared `timeout` status is
never written), one `update_stats(success=False, ...)`, and a serialized
tool-role message that does contain the word "timeout". -/
theorem executor_timeout_c5 (tool : ToolDefinition) (run : BackendRun)
    (t : ℕ) (htype : tool.execution_type = "script")
    (hrun : run.script = ScriptRun.timedOut) :
    ToolExecutor.execute tool run t =
      (failureDict ("Script timeout after " ++ toString tool.script_timeout ++ "s"),
       [⟨tool.name, ExecStatus.error, none,
         "Script timeout after " ++ toString tool.script_timeout ++ "s", t⟩],
       [(false, t)]) ∧
    containsWord
      (jdump (failureDict
        ("Script timeout after " ++ toString tool.script_timeout ++ "s")))
      "timeout" := by
  constructor
  · have hd : ToolExecutor.dispatch tool run =
        Except.error ("Script timeout after " ++ toString tool.script_timeout ++ "s") := by
      simp [ToolExecutor.dispatch, htype, ScriptExecutor.execute, hrun]
    simp [ToolExecutor.execute, hd]
  · have h := failureDict_timeout_word (toString tool.script_timeout ++ "s")
    rw [← String.append_assoc] at h
    exact h

/-- Witness for `executor_timeout_c5` on the concrete sample tool. -/
theorem executor_timeout_c5_witness :
    ToolExecutor.execute sampleScriptTool timeoutBackendRun 5 =
      (failureDict ("Script timeout after " ++ toString sampleScriptTool.script_timeout ++ "s"),
       [⟨sampleScriptTool.name, ExecStatus.error, none,
         "Script timeout after " ++ toString sampleScriptTool.script_timeout ++ "s", 5⟩],
       [(false, 5)]) ∧
    containsWord
      (jdump (failureDict
        ("Script timeout after " ++ toString sampleScriptTool.script_timeout ++ "s")))
      "timeout" :=
  executor_timeout_c5 sampleScriptTool timeoutBackendRun 5 rfl rfl

/-! ## Tool Registry and `tool_retriever`
(`backend/src/llm_tools/registry.py`, `backend/src/llm_tools/retriever.py`)

The database of `ToolDefinition` rows is an explicit list, assumed to be in
the table's default ordering (`Meta.ordering = ['category', 'name']`), so
that `.filter(...)` results appear in queryset order. -/

/-- The tool definition table. -/
structure ToolStore where
  tools : List ToolDefinition

/-- Python truthiness of an optional string (`if category:` treats both
`None` and `''` as false). -/
def strTruthy : Option String → Option String
  | none => none
  | some s => if s = "" then none else some s

/-- `sub` occurs in `l`, decidable scan (used for `__icontains`). -/
def listContainsSub (sub l : List Char) : Bool :=
  (List.range (l.length + 1)).any fun i => sub.isPrefixOf (l.drop i)

/-- Django `__icontains`: case-insensitive substring match (lower-casing
applied per character of the underlying data, as `str.lower` does for the
ASCII text in this development). -/
def icontains (hay needle : String) : Bool :=
  listContainsSub (needle.data.map Char.toLower) (hay.data.map Char.toLower)

/-- An `ollama.Tool` function schema (`type='function'`, flattened
`function.name` / `function.description` / `function.parameters`). -/
structure OllamaTool where
  name : String
  description : String
  parameters : JVal

/-- `ToolDefinition.to_ollama_tool`. -/
def ToolDefinition.to_ollama_tool (t : ToolDefinition) : OllamaTool :=
  ⟨t.name, t.description, t.parameters_schema⟩

/-- `ToolRegistry.get_tools_by_category`:
`ToolDefinition.objects.filter(category=category, is_active=True)`. -/
def ToolRegistry.get_tools_by_category (db : ToolStore) (category : String) :
    List OllamaTool :=
  (db.tools.filter fun t => t.category == category && t.is_active).map
    ToolDefinition.to_ollama_tool

/-- `ToolRegistry.get_all_tools`: all active tools. -/
def ToolRegistry.get_all_tools (db : ToolStore) : List OllamaTool :=
  (db.tools.filter fun t => t.is_active).map ToolDefinition.to_ollama_tool

/-- `ToolRegistry.search_tools`: case-insensitive substring match over
name, description and display name (OR-combined), active only. -/
def ToolRegistry.search_tools (db : ToolStore) (query : String) :
    List OllamaTool :=
  (db.tools.filter fun t =>
    (icontains t.name query || icontains t.description query ||
      icontains t.display_name query) && t.is_active).map
    ToolDefinition.to_ollama_tool

/-- `ToolRegistry.get_tools_as_ollama_list`: category filter when the
argument is truthy, else all active tools. -/
def ToolRegistry.get_tools_as_ollama_list (db : ToolStore)
    (category : Option String) : List OllamaTool :=
  match strTruthy category with
  | some c =>
    (db.tools.filter fun t => t.category == c && t.is_active).map
      ToolDefinition.to_ollama_tool
  | none =>
    (db.tools.filter fun t => t.is_active).map ToolDefinition.to_ollama_tool

/-- The parameter schema of `TOOL_RETRIEVER_METADATA`. -/
def toolRetrieverParameters : JVal :=
  .obj [("type", .str "object"),
        ("properties", .obj
          [("intent_category", .obj
            [("type", .str "string"),
             ("enum", .arr [.str "wellbeing", .str "tasks", .str "reminders",
                            .str "moments", .str "context"]),
             ("description", .str "Category of tools needed (optional but recommended for efficiency)")]),
           ("query", .obj
            [("type", .str "string"),
             ("description", .str "Natural language description of what you need to do (optional)")])]),
        ("required", .arr [])]

/-- `ToolRegistry.get_tool_retriever`: the bootstrap meta-tool built from
`TOOL_RETRIEVER_METADATA`. -/
def ToolRegistry.get_tool_retriever : OllamaTool :=
  { name := "tool_retriever"
    description :=
      "Retrieve available tools for performing actions or fetching data. " ++
      "Call this FIRST when you need to interact with external systems, " ++
      "create/modify data, or fetch information. " ++
      "Returns tool definitions you can then use."
    parameters := toolRetrieverParameters }

/-- `tool_retriever` (`retriever.py`): resolves the category / query /
no-argument cases against the store and returns the success dictionary.
The `except` branch (database failure) is not modelled — the store never
raises here. -/
def tool_retriever (db : ToolStore) (intent_category query : Option String) :
    JVal :=
  let tool_defs : List ToolDefinition :=
    match strTruthy intent_category with
    | some c => db.tools.filter fun t => t.category == c && t.is_active
    | none =>
      match strTruthy query with
      | some q =>
        db.tools.filter fun t =>
          (icontains t.name q || icontains t.description q ||
            icontains t.display_name q) && t.is_active
      | none => db.tools.filter fun t => t.is_active
  let tool_dicts : List JVal := tool_defs.map fun t =>
    .obj [("name", .str t.name), ("description", .str t.description),
          ("category", .str t.category), ("parameters", t.parameters_schema)]
  .obj [("success", .bool true),
        ("tools_count", .num tool_dicts.length),
        ("tools", .arr tool_dicts),
        ("message", .str ("Retrieved " ++ toString tool_dicts.length ++ " tools" ++
          (match strTruthy intent_category with
           | some c => " for category '" ++ c ++ "'"
           | none => "")))]

/-- Records and statistics updates accumulated against the store
(the audit trail is append-only). -/
structure ExecEffects where
  records : List ToolExecution
  stats : List (String × Bool × ℕ)

/-- `ToolRegistry.execute_tool`: the bootstrap name short-circuits to
`tool_retriever` before any database lookup, authentication check or
executor dispatch; otherwise look up an active definition by exact name,
check `requires_auth`, and delegate to `ToolExecutor.execute`.  Tool
arguments other than the retriever's `intent_category` / `query` keys are
passed through to the backend opaquely (inside `BackendRun`) and are not
read by the orchestrator, so they are not modelled. -/
def ToolRegistry.execute_tool (db : ToolStore) (run : BackendRun)
    (execution_time_ms : ℕ) (user_is_authenticated : Bool) (st : ExecEffects)
    (tool_name : String) (intent_category query : Option String) :
    JVal × ExecEffects :=
  if tool_name = "tool_retriever" then
    (tool_retriever db intent_category query, st)
  else
    match db.tools.find? fun t => t.name == tool_name && t.is_active with
    | none =>
      (.obj [("success", .bool false),
             ("error", .str ("Tool " ++ tool_name ++ " not found or inactive"))], st)
    | some tool =>
      if tool.requires_auth && !user_is_authenticated then
        (.obj [("success", .bool false),
               ("error", .str "Authentication required")], st)
      else
        let out := ToolExecutor.execute tool run execution_time_ms
        (out.1, ⟨st.records ++ out.2.1,
                 st.stats ++ out.2.2.map fun p => (tool.name, p.1, p.2)⟩)

/-- `C9` confirmed: invoking the registry with the bootstrap name
`tool_retriever` dispatches straight to the retriever function — the
audit/statistics state is returned untouched (no `ToolExecution` row, no
statistics update), and the result is the retriever's dictionary. -/
theorem registry_retriever_frame_c9 (db : ToolStore) (run : BackendRun)
    (t : ℕ) (auth : Bool) (st : ExecEffects)
    (intent_category query : Option String) :
    (ToolRegistry.execute_tool db run t auth st "tool_retriever"
        intent_category query).2 = st ∧
    (ToolRegistry.execute_tool db run t auth st "tool_retriever"
        intent_category query).1 = tool_retriever db intent_category query := by
  constructor <;> rfl

/-! ## Conversation Orchestrator —
`backend/src/llm_service/ollama_client.py` (`OllamaClient.chat` buffered,
`OllamaClient.chat_stream` incremental)

`PromptManager.format_chat_messages` (conventional prompt assembly, out of
the specified core) is abstracted: the orchestrator receives the formatted
message list.  The inference endpoint and the per-execution backend
outcomes are environment parameters; `Except.error` models a raised
exception.  In the incremental model the streamed chunks of one response
are collapsed into the assembled message (the claims only concern whole
contents and event ordering, not chunk boundaries). -/

/-- One chat message; `tool_calls` carries, per requested call, the
function name and the two argument keys the orchestrator and retriever
read (`intent_category`, `query`). -/
structure ToolCall where
  name : String
  intent_category : Option String
  query : Option String

structure Message where
  role : String
  content : String
  tool_calls : List ToolCall

/-- Python truthiness of `result.get('success')`. -/
def jtruthy : JVal → Bool
  | .null => false
  | .bool b => b
  | .num n => n != 0
  | .str s => s != ""
  | .arr xs => !xs.isEmpty
  | .obj fs => !fs.isEmpty

def resultSuccess (j : JVal) : Bool :=
  match jlookup j "success" with
  | some v => jtruthy v
  | none => false

/-- Environment of one exchange: the inference endpoint (`client.chat`,
which may raise), the backend outcome and measured wall-clock time of the
`i`-th tool execution, and whether `user.is_authenticated`. -/
structure OrcEnv where
  model : List Message → Option (List OllamaTool) → Except String Message
  backendRun : ℕ → BackendRun
  execTime : ℕ → ℕ
  user_is_authenticated : Bool

/-- The message raised when the query branch of tool discovery runs:
`ToolRegistry` defines no method `get_tool_schema`, so the comprehension
`[registry.get_tool_schema(t.name) for t in tool_objs]` raises
`AttributeError` at its first element (an empty comprehension performs no
attribute access and yields `[]`). -/
def attrErrMsg : String :=
  "AttributeError: ToolRegistry object has no attribute get_tool_schema"

/-- The tool-discovery branch run after a successful `tool_retriever`
call: `if category: ... elif query: ... else: ...` from
`OllamaClient.chat` / `chat_stream`. -/
def discover_new_tools (db : ToolStore) (tc : ToolCall) :
    Except String (List OllamaTool) :=
  match strTruthy tc.intent_category with
  | some c => .ok (ToolRegistry.get_tools_as_ollama_list db (some c))
  | none =>
    match strTruthy tc.query with
    | some q =>
      match ToolRegistry.search_tools db q with
      | [] => .ok []
      | _ :: _ => .error attrErrMsg
    | none => .ok (ToolRegistry.get_tools_as_ollama_list db none)

/-- Orchestrator loop state.  `requests` is ghost instrumentation (not
Python state): it logs, per endpoint call, the messages and tool catalog
sent to `self.client.chat`. -/
structure ChatState where
  messages : List Message
  tools : Option (List OllamaTool)
  effects : ExecEffects
  requests : List (List Message × Option (List OllamaTool))

/-- Result of the buffered exchange: the returned content, or a raised
exception (`chat` logs and re-raises). -/
inductive ChatOutcome where
  | answer (content : String)
  | raised (e : String)
deriving DecidableEq

/-- `"I apologize, but I'm having trouble completing that request."` —
returned when `max_iterations` is exhausted. -/
def maxIterApology : String :=
  "I apologize, but I'm having trouble completing that request."

/-- The `for tool_call in message['tool_calls']` body of `OllamaClient.chat`:
execute via the registry, widen the catalog after a successful retriever
call (raising `AttributeError` on the nonempty query path), then append
the tool-role message `{'role': 'tool', 'content': json.dumps(result)}`. -/
def processToolCalls (db : ToolStore) (env : OrcEnv) :
    List ToolCall → ChatState → ChatState × Option String
  | [], st => (st, none)
  | tc :: rest, st =>
    let idx := st.effects.records.length
    let out := ToolRegistry.execute_tool db (env.backendRun idx)
      (env.execTime idx) env.user_is_authenticated st.effects
      tc.name tc.intent_category tc.query
    if tc.name == "tool_retriever" && resultSuccess out.1 then
      match discover_new_tools db tc with
      | .error e => ({ st with effects := out.2 }, some e)
      | .ok new_tools =>
        processToolCalls db env rest
          { st with
            messages := st.messages ++ [⟨"tool", jdump out.1, []⟩]
            tools := some (st.tools.getD [] ++ new_tools)
            effects := out.2 }
    else
      processToolCalls db env rest
        { st with
          messages := st.messages ++ [⟨"tool", jdump out.1, []⟩]
          effects := out.2 }

/-- The `while iterations < max_iterations` loop of `OllamaClient.chat`,
with `fuel = max_iterations - iterations`.  Exhausted fuel returns the
apology; a response without tool calls returns its content; otherwise the
assistant message is appended, its tool calls are processed and the loop
continues.  A raised exception propagates (`except ... raise`). -/
def OllamaClient.chatLoop (db : ToolStore) (env : OrcEnv) (use_tools : Bool) :
    ℕ → ChatState → ChatOutcome × ChatState
  | 0, st => (.answer maxIterApology, st)
  | fuel + 1, st =>
    let st1 : ChatState :=
      { st with requests := st.requests ++ [(st.messages, st.tools)] }
    match env.model st.messages st.tools with
    | .error e => (.raised e, st1)
    | .ok message =>
      if !use_tools || message.tool_calls.isEmpty then
        (.answer message.content, st1)
      else
        let st2 := { st1 with messages := st1.messages ++ [message] }
        match processToolCalls db env message.tool_calls st2 with
        | (st3, some e) => (.raised e, st3)
        | (st3, none) => OllamaClient.chatLoop db env use_tools fuel st3

/-- `OllamaClient.chat`: the initial catalog is the bootstrap retriever
alone when tools are enabled, else no catalog. -/
def OllamaClient.chat (db : ToolStore) (env : OrcEnv) (use_tools : Bool)
    (max_iterations : ℕ) (messages : List Message) :
    ChatOutcome × ChatState :=
  let tools : Option (List OllamaTool) :=
    if use_tools then some [ToolRegistry.get_tool_retriever] else none
  OllamaClient.chatLoop db env use_tools max_iterations
    ⟨messages, tools, ⟨[], []⟩, []⟩

/-- Events of the incremental mode.  `content`, `toolCall`,
`toolsDiscovered` and `toolResult` are the generator's yields;
`endpointCall` is ghost instrumentation marking each request sent to the
inference endpoint (with the catalog it carried). -/
inductive StreamEvent where
  | endpointCall (messages : List Message) (tools : Option (List OllamaTool))
  | content (s : String)
  | toolCall (name : String) (intent_category query : Option String)
  | toolsDiscovered (count : ℕ) (names : List String)
  | toolResult (name : String) (result : JVal)

/-- Incremental loop state: like `ChatState` but logging the yielded
events (interleaved with the ghost `endpointCall` markers). -/
structure StreamState where
  messages : List Message
  tools : Option (List OllamaTool)
  effects : ExecEffects
  events : List StreamEvent

/-- The tool-call loop body of `OllamaClient.chat_stream`: yield the
`tool_call` event, execute, on a successful retriever call widen the
catalog and yield `tools_discovered`, yield `tool_result`, append the
tool-role message. -/
def processToolCallsStream (db : ToolStore) (env : OrcEnv) :
    List ToolCall → StreamState → StreamState × Option String
  | [], st => (st, none)
  | tc :: rest, st =>
    let st1 : StreamState :=
      { st with events :=
          st.events ++ [.toolCall tc.name tc.intent_category tc.query] }
    let idx := st1.effects.records.length
    let out := ToolRegistry.execute_tool db (env.backendRun idx)
      (env.execTime idx) env.user_is_authenticated st1.effects
      tc.name tc.intent_category tc.query
    if tc.name == "tool_retriever" && resultSuccess out.1 then
      match discover_new_tools db tc with
      | .error e => ({ st1 with effects := out.2 }, some e)
      | .ok new_tools =>
        processToolCallsStream db env rest
          { st1 with
            tools := some (st1.tools.getD [] ++ new_tools)
            effects := out.2
            events := st1.events ++
              [.toolsDiscovered new_tools.length (new_tools.map OllamaTool.name),
               .toolResult tc.name out.1]
            messages := st1.messages ++ [⟨"tool", jdump out.1, []⟩] }
    else
      processToolCallsStream db env rest
        { st1 with
          effects := out.2
          events := st1.events ++ [.toolResult tc.name out.1]
          messages := st1.messages ++ [⟨"tool", jdump out.1, []⟩] }

/-- The `while iterations < max_iterations` loop of
`OllamaClient.chat_stream`.  The streamed chunks of one response appear as
one `content` event carrying the assembled (non-empty) content; exhausted
fuel just ends the generator (only a warning is logged); a response
without tool calls breaks out of the loop. -/
def OllamaClient.chatStreamLoop (db : ToolStore) (env : OrcEnv)
    (use_tools : Bool) : ℕ → StreamState → StreamState × Option String
  | 0, st => (st, none)
  | fuel + 1, st =>
    let st1 : StreamState :=
      { st with events := st.events ++ [.endpointCall st.messages st.tools] }
    match env.model st.messages st.tools with
    | .error e => (st1, some e)
    | .ok message =>
      let st2 : StreamState :=
        if message.content == "" then st1
        else { st1 with events := st1.events ++ [.content message.content] }
      if !use_tools || message.tool_calls.isEmpty then
        (st2, none)
      else
        let st3 := { st2 with messages := st2.messages ++ [message] }
        match processToolCallsStream db env message.tool_calls st3 with
        | (st4, some e) => (st4, some e)
        | (st4, none) => OllamaClient.chatStreamLoop db env use_tools fuel st4

/-- The fixed prefix of the error chunk yielded by `chat_stream`'s
`except` clause (`f"\n\nError: Connection to AI service interrupted.
{str(e)}"`). -/
def connErrPrefix : String := "\n\nError: Connection to AI service interrupted. "

/-- `OllamaClient.chat_stream`: on any exception escaping the loop, the
generator yields the error chunk — the prefix followed by the exception's
text — and re-raises (outcome `some e`). -/
def OllamaClient.chat_stream (db : ToolStore) (env : OrcEnv)
    (use_tools : Bool) (max_iterations : ℕ) (messages : List Message) :
    StreamState × Option String :=
  let tools : Option (List OllamaTool) :=
    if use_tools then some [ToolRegistry.get_tool_retriever] else none
  match OllamaClient.chatStreamLoop db env use_tools max_iterations
      ⟨messages, tools, ⟨[], []⟩, []⟩ with
  | (st, none) => (st, none)
  | (st, some e) =>
    ({ st with events := st.events ++ [.content (connErrPrefix ++ e)] }, some e)

/-! ### C8 — error surfacing in incremental mode -/

/-- Concrete environment whose inference endpoint raises
`ECONNREFUSED` on every call. -/
def c8Env : OrcEnv :=
  { model := fun _ _ => .error "ECONNREFUSED"
    backendRun := fun _ => timeoutBackendRun
    execTime := fun _ => 0
    user_is_authenticated := true }

/-- `C8` counterexample: when the first endpoint call raises
`ECONNREFUSED`, the chunk appended to the content stream contains the
exception's text verbatim — it is not a purely generic message. -/
theorem stream_error_c8_cex :
    (OllamaClient.chat_stream ⟨[]⟩ c8Env true 10 []).1.events =
      [StreamEvent.endpointCall [] (some [ToolRegistry.get_tool_retriever]),
       StreamEvent.content (connErrPrefix ++ "ECONNREFUSED")] ∧
    containsWord (connErrPrefix ++ "ECONNREFUSED") "ECONNREFUSED" := by
  constructor
  · rfl
  · exact containsWord_append_left _ _ _ ⟨[], [], by simp⟩

/-- `C8` amended: when the inference-endpoint call raises, the chunk
appended to the output stream is the fixed connectivity prefix followed by
the exception's text verbatim, and the exception is then re-raised to the
caller (it is logged as well, but not only logged). -/
theorem stream_error_c8 (db : ToolStore) (env : OrcEnv)
    (msgs : List Message) (e : String) (u : Bool) (k : ℕ)
    (hm : env.model msgs
      (if u then some [ToolRegistry.get_tool_retriever] else none) =
        .error e) :
    OllamaClient.chat_stream db env u (k + 1) msgs =
      (⟨msgs, if u then some [ToolRegistry.get_tool_retriever] else none,
        ⟨[], []⟩,
        [StreamEvent.endpointCall msgs
          (if u then some [ToolRegistry.get_tool_retriever] else none),
         StreamEvent.content (connErrPrefix ++ e)]⟩, some e) := by
  simp [OllamaClient.chat_stream, OllamaClient.chatStreamLoop, hm]

/-- Witness for `stream_error_c8` at the concrete raising environment. -/
theorem stream_error_c8_witness :
    OllamaClient.chat_stream ⟨[]⟩ c8Env true 10 [] =
      (⟨[], if true then some [ToolRegistry.get_tool_retriever] else none,
        ⟨[], []⟩,
        [StreamEvent.endpointCall []
          (if true then some [ToolRegistry.get_tool_retriever] else none),
         StreamEvent.content (connErrPrefix ++ "ECONNREFUSED")]⟩,
       some "ECONNREFUSED") :=
  stream_error_c8 ⟨[]⟩ c8Env [] "ECONNREFUSED" true 9 rfl

/-! ### C2 — iteration cap in buffered mode -/

/-- A requested tool call that does not hit the raising query-discovery
path: if it is the bootstrap retriever, its discovery step succeeds. -/
def safeToolCall (db : ToolStore) (tc : ToolCall) : Prop :=
  tc.name = "tool_retriever" →
    ∃ ts, discover_new_tools db tc = Except.ok ts

/-- The model responds to every request with at least one tool call, and
never with a raising discovery path. -/
def alwaysToolCalling (env : OrcEnv) (db : ToolStore) : Prop :=
  ∀ ms ts, ∃ m, env.model ms ts = Except.ok m ∧ m.tool_calls ≠ [] ∧
    ∀ tc ∈ m.tool_calls, safeToolCall db tc

lemma processToolCalls_requests (db : ToolStore) (env : OrcEnv) :
    ∀ (calls : List ToolCall) (st : ChatState),
      (processToolCalls db env calls st).1.requests = st.requests := by
  intro calls
  induction calls with
  | nil => intro st; rfl
  | cons tc rest ih =>
    intro st
    simp only [processToolCalls]
    split
    · split
      · rfl
      · rw [ih]
    · rw [ih]

lemma processToolCalls_safe (db : ToolStore) (env : OrcEnv) :
    ∀ (calls : List ToolCall) (st : ChatState),
      (∀ tc ∈ calls, safeToolCall db tc) →
      (processToolCalls db env calls st).2 = none := by
  intro calls
  induction calls with
  | nil => intro st h; rfl
  | cons tc rest ih =>
    intro st h
    have hrest : ∀ x ∈ rest, safeToolCall db x := fun x hx => h x (by simp [hx])
    simp only [processToolCalls]
    split
    · case isTrue hguard =>
      have hn : tc.name = "tool_retriever" := by
        have hb := (Bool.and_eq_true _ _).mp hguard |>.1
        exact eq_of_beq hb
      obtain ⟨ts, hts⟩ := h tc (by simp) hn
      rw [hts]
      exact ih _ hrest
    · exact ih _ hrest

lemma chatLoop_alwaysToolCalling (db : ToolStore) (env : OrcEnv)
    (H : alwaysToolCalling env db) :
    ∀ (fuel : ℕ) (st : ChatState),
      (OllamaClient.chatLoop db env true fuel st).1 =
        ChatOutcome.answer maxIterApology ∧
      (OllamaClient.chatLoop db env true fuel st).2.requests.length =
        st.requests.length + fuel := by
  intro fuel
  induction fuel with
  | zero => intro st; exact ⟨rfl, rfl⟩
  | succ n ih =>
    intro st
    obtain ⟨m, hm, hcalls, hsafe⟩ := H st.messages st.tools
    have hne : m.tool_calls.isEmpty = false := by
      cases h : m.tool_calls with
      | nil => exact absurd h hcalls
      | cons a l => rfl
    simp only [OllamaClient.chatLoop, hm, Bool.not_true, Bool.false_or, hne]
    have hsome := processToolCalls_safe db env m.tool_calls
      { st with
        requests := st.requests ++ [(st.messages, st.tools)]
        messages := st.messages ++ [m] } hsafe
    have hreq := processToolCalls_requests db env m.tool_calls
      { st with
        requests := st.requests ++ [(st.messages, st.tools)]
        messages := st.messages ++ [m] }
    cases hp : processToolCalls db env m.tool_calls
        { st with
          requests := st.requests ++ [(st.messages, st.tools)]
          messages := st.messages ++ [m] } with
    | mk st3 oe =>
      rw [hp] at hsome hreq
      simp only at hsome hreq
      subst hsome
      obtain ⟨ihl, ihr⟩ := ih st3
      refine ⟨ihl, ?_⟩
      show (OllamaClient.chatLoop db env true n st3).2.requests.length = _
      rw [ihr, hreq]
      simp only [List.length_append, List.length_singleton]
      omega

/-- `C2` amended: in buffered mode, a model that answers every request
with at least one tool call — and never triggers the raising query-based
discovery path (see `C10`) — drives exactly 10 endpoint calls, after which
the loop ends normally with the fixed apology string.  (Without the
discovery proviso a tool-calling model can crash the exchange instead, see
`chat_iteration_cap_c2_cex`.) -/
theorem chat_iteration_cap_c2 (db : ToolStore) (env : OrcEnv)
    (msgs : List Message) (H : alwaysToolCalling env db) :
    (OllamaClient.chat db env true 10 msgs).1 =
      ChatOutcome.answer maxIterApology ∧
    (OllamaClient.chat db env true 10 msgs).2.requests.length = 10 := by
  have h := chatLoop_alwaysToolCalling db env H 10
    ⟨msgs, some [ToolRegistry.get_tool_retriever], ⟨[], []⟩, []⟩
  simpa [OllamaClient.chat] using h

/-- Environment for the witness: every response requests the retriever
with a category argument (a succeeding discovery path). -/
def c2wEnv : OrcEnv :=
  { model := fun _ _ =>
      .ok ⟨"assistant", "", [⟨"tool_retriever", some "wellbeing", none⟩]⟩
    backendRun := fun _ => timeoutBackendRun
    execTime := fun _ => 0
    user_is_authenticated := true }

/-- Witness for `chat_iteration_cap_c2` on the concrete always-retrieving
environment over an empty store. -/
theorem chat_iteration_cap_c2_witness :
    (OllamaClient.chat ⟨[]⟩ c2wEnv true 10 []).1 =
      ChatOutcome.answer maxIterApology ∧
    (OllamaClient.chat ⟨[]⟩ c2wEnv true 10 []).2.requests.length = 10 := by
  apply chat_iteration_cap_c2
  intro ms ts
  refine ⟨_, rfl, by simp, ?_⟩
  intro tc htc
  simp only [List.mem_singleton] at htc
  subst htc
  intro _
  exact ⟨_, rfl⟩

/-- Environment for the counterexample: every response requests the
retriever with only a `query` argument that matches a stored tool. -/
def c2cEnv : OrcEnv :=
  { model := fun _ _ =>
      .ok ⟨"assistant", "", [⟨"tool_retriever", none, some "checkin"⟩]⟩
    backendRun := fun _ => timeoutBackendRun
    execTime := fun _ => 0
    user_is_authenticated := true }

/-- `C2` counterexample: a model that always requests a tool call can make
the buffered exchange raise (after a single endpoint call) instead of
terminating normally with the apology — the query-based discovery path
references the undefined `registry.get_tool_schema`. -/
theorem chat_iteration_cap_c2_cex :
    (Message.tool_calls ⟨"assistant", "", [⟨"tool_retriever", none, some "checkin"⟩]⟩ ≠ []) ∧
    (OllamaClient.chat ⟨[sampleScriptTool]⟩ c2cEnv true 10 []).1 =
      ChatOutcome.raised attrErrMsg ∧
    (OllamaClient.chat ⟨[sampleScriptTool]⟩ c2cEnv true 10 []).2.requests.length = 1 := by
  refine ⟨by simp, by decide, by decide⟩

/-! ### C10 — the query-based discovery path -/

/-- The bootstrap short-circuit of `execute_tool`, as a rewriting lemma. -/
lemma execute_tool_retriever (db : ToolStore) (run : BackendRun) (t : ℕ)
    (auth : Bool) (st : ExecEffects) (ic q : Option String) :
    ToolRegistry.execute_tool db run t auth st "tool_retriever" ic q =
      (tool_retriever db ic q, st) := rfl

/-- The retriever's result dictionary always reports success. -/
lemma resultSuccess_tool_retriever (db : ToolStore) (ic q : Option String) :
    resultSuccess (tool_retriever db ic q) = true := rfl

/-- The discovery step on a query-only call with a non-empty search result
raises (`ToolRegistry` has no `get_tool_schema`). -/
lemma discover_query_nonempty (db : ToolStore) (q : String) (hq : q ≠ "")
    (hs : ToolRegistry.search_tools db q ≠ []) (ic : Option String)
    (hic : strTruthy ic = none) :
    discover_new_tools db ⟨"tool_retriever", ic, some q⟩ =
      Except.error attrErrMsg := by
  simp only [discover_new_tools]
  rw [hic]
  simp only [strTruthy, if_neg hq]
  cases hcase : ToolRegistry.search_tools db q with
  | nil => exact absurd hcase hs
  | cons a l => rfl

/-- `C10` amended: in both modes, when the model's response calls
`tool_retriever` with a query (and no truthy category) and the search
matches **at least one** tool, the discovery branch's reference to the
undefined `registry.get_tool_schema` raises, so the exchange raises
instead of offering the discovered tools; with zero matches the
comprehension is empty, nothing raises, and no tools are added. -/
theorem query_discovery_c10 (db : ToolStore) (env : OrcEnv)
    (msgs : List Message) (q cont : String) (k : ℕ)
    (hq : q ≠ "")
    (hm : env.model msgs (some [ToolRegistry.get_tool_retriever]) =
      Except.ok ⟨"assistant", cont, [⟨"tool_retriever", none, some q⟩]⟩)
    (hs : ToolRegistry.search_tools db q ≠ []) :
    (OllamaClient.chat db env true (k + 1) msgs).1 =
      ChatOutcome.raised attrErrMsg ∧
    (OllamaClient.chat_stream db env true (k + 1) msgs).2 =
      some attrErrMsg := by
  have hd := discover_query_nonempty db q hq hs none rfl
  constructor
  · simp [OllamaClient.chat, OllamaClient.chatLoop, hm, processToolCalls,
      execute_tool_retriever, resultSuccess_tool_retriever, hd]
  · simp [OllamaClient.chat_stream, OllamaClient.chatStreamLoop, hm,
      processToolCallsStream, execute_tool_retriever,
      resultSuccess_tool_retriever, hd]

/-- Witness for `query_discovery_c10`: the store holds one matching tool
and the model requests `tool_retriever(query="checkin")`. -/
theorem query_discovery_c10_witness :
    (OllamaClient.chat ⟨[sampleScriptTool]⟩ c2cEnv true 10 []).1 =
      ChatOutcome.raised attrErrMsg ∧
    (OllamaClient.chat_stream ⟨[sampleScriptTool]⟩ c2cEnv true 10 []).2 =
      some attrErrMsg :=
  query_discovery_c10 ⟨[sampleScriptTool]⟩ c2cEnv [] "checkin" "" 9
    (by decide) rfl
    (by
      have h : ToolRegistry.search_tools ⟨[sampleScriptTool]⟩ "checkin" =
          [sampleScriptTool.to_ollama_tool] := rfl
      rw [h]
      exact List.cons_ne_nil _ _)

/-- Environment for the `C10` counterexample: the first response requests
`tool_retriever(query="nothing")` (matching no stored tool), the second
answers plainly. -/
def c10Env : OrcEnv :=
  { model := fun ms _ =>
      if ms.length ≤ 1 then
        .ok ⟨"assistant", "", [⟨"tool_retriever", none, some "nothing"⟩]⟩
      else .ok ⟨"assistant", "done", []⟩
    backendRun := fun _ => timeoutBackendRun
    execTime := fun _ => 0
    user_is_authenticated := true }

/-- `C10` counterexample: with a query matching zero tools the retriever
still reports success, but no `get_tool_schema` reference is evaluated —
both modes complete without raising, so the claim's "the exchange raises"
does not hold for every successful query-only call. -/
theorem query_discovery_c10_cex :
    resultSuccess (tool_retriever ⟨[]⟩ none (some "nothing")) = true ∧
    (OllamaClient.chat ⟨[]⟩ c10Env true 10 [⟨"user", "hello", []⟩]).1 =
      ChatOutcome.answer "done" ∧
    (OllamaClient.chat_stream ⟨[]⟩ c10Env true 10 [⟨"user", "hello", []⟩]).2 =
      none := by
  refine ⟨rfl, by decide, ?_⟩
  decide

/-! ### C6 — catalog growth after a successful category retrieval -/

/-- The discovery step on a truthy category argument resolves through
`get_tools_as_ollama_list`. -/
lemma discover_category (db : ToolStore) (c : String) (hc : c ≠ "") :
    discover_new_tools db ⟨"tool_retriever", some c, none⟩ =
      Except.ok (ToolRegistry.get_tools_as_ollama_list db (some c)) := by
  simp only [discover_new_tools, strTruthy, if_neg hc]

lemma processToolCalls_requests_of_eq {db : ToolStore} {env : OrcEnv}
    {calls : List ToolCall} {st : ChatState} {p : ChatState × Option String}
    (hp : processToolCalls db env calls st = p) :
    p.1.requests = st.requests := by
  rw [← hp, processToolCalls_requests]

/-- Every endpoint request logged before entering the loop is preserved:
the request log only grows at its tail. -/
lemma chatLoop_requests_extend (db : ToolStore) (env : OrcEnv) (u : Bool) :
    ∀ (fuel : ℕ) (st : ChatState), ∃ t,
      (OllamaClient.chatLoop db env u fuel st).2.requests =
        st.requests ++ t := by
  intro fuel
  induction fuel with
  | zero => intro st; exact ⟨[], by simp [OllamaClient.chatLoop]⟩
  | succ n ih =>
    intro st
    simp only [OllamaClient.chatLoop]
    split
    · exact ⟨[(st.messages, st.tools)], rfl⟩
    · split
      · exact ⟨[(st.messages, st.tools)], rfl⟩
      · split
        next st3 e hp =>
          have hreq := processToolCalls_requests_of_eq hp
          simp only at hreq
          exact ⟨[(st.messages, st.tools)], hreq⟩
        next st3 hp =>
          obtain ⟨t, ht⟩ := ih st3
          have hreq := processToolCalls_requests_of_eq hp
          simp only at hreq
          refine ⟨[(st.messages, st.tools)] ++ t, ?_⟩
          rw [ht, hreq, List.append_assoc]

/-- At positive fuel the loop's first action is to send the current
request; everything later extends the log after it. -/
lemma chatLoop_requests_head (db : ToolStore) (env : OrcEnv) (u : Bool)
    (fuel : ℕ) (st : ChatState) : ∃ t,
      (OllamaClient.chatLoop db env u (fuel + 1) st).2.requests =
        st.requests ++ [(st.messages, st.tools)] ++ t := by
  simp only [OllamaClient.chatLoop]
  split
  · exact ⟨[], by simp⟩
  · split
    · exact ⟨[], by simp⟩
    · split
      next st3 e hp =>
        have hreq := processToolCalls_requests_of_eq hp
        simp only at hreq
        exact ⟨[], by simp [hreq]⟩
      next st3 hp =>
        obtain ⟨t, ht⟩ := chatLoop_requests_extend db env u fuel st3
        have hreq := processToolCalls_requests_of_eq hp
        simp only at hreq
        exact ⟨t, by rw [ht, hreq]⟩

/-- The incremental tool-call loop only appends events. -/
lemma processToolCallsStream_events_extend (db : ToolStore) (env : OrcEnv) :
    ∀ (calls : List ToolCall) (st : StreamState),
      st.events <+: (processToolCallsStream db env calls st).1.events := by
  intro calls
  induction calls with
  | nil => intro st; exact List.prefix_rfl
  | cons tc rest ih =>
    intro st
    simp only [processToolCallsStream]
    split
    · split
      · exact ⟨_, rfl⟩
      · refine List.IsPrefix.trans ?_ (ih _)
        exact (List.prefix_append _ _).trans (List.prefix_append _ _)
    · refine List.IsPrefix.trans ?_ (ih _)
      exact (List.prefix_append _ _).trans (List.prefix_append _ _)

lemma processToolCallsStream_events_of_eq {db : ToolStore} {env : OrcEnv}
    {calls : List ToolCall} {st : StreamState}
    {p : StreamState × Option String}
    (hp : processToolCallsStream db env calls st = p) :
    st.events <+: p.1.events := by
  rw [← hp]
  exact processToolCallsStream_events_extend db env calls st

/-- The incremental loop only appends events. -/
lemma chatStreamLoop_events_extend (db : ToolStore) (env : OrcEnv)
    (u : Bool) : ∀ (fuel : ℕ) (st : StreamState),
      st.events <+: (OllamaClient.chatStreamLoop db env u fuel st).1.events := by
  intro fuel
  induction fuel with
  | zero => intro st; exact List.prefix_rfl
  | succ n ih =>
    intro st
    simp only [OllamaClient.chatStreamLoop]
    split
    · exact ⟨_, rfl⟩
    · rename_i m hm
      by_cases hcont : (m.content == "") = true
      · simp only [if_pos hcont]
        split
        · exact ⟨_, rfl⟩
        · split
          next st4 e hp =>
            exact (List.prefix_append _ _).trans
              (processToolCallsStream_events_of_eq hp)
          next st4 hp =>
            exact ((List.prefix_append _ _).trans
              (processToolCallsStream_events_of_eq hp)).trans (ih st4)
      · simp only [if_neg hcont]
        split
        · exact (List.prefix_append _ _).trans (List.prefix_append _ _)
        · split
          next st4 e hp =>
            exact ((List.prefix_append _ _).trans
              (List.prefix_append _ _)).trans
              (processToolCallsStream_events_of_eq hp)
          next st4 hp =>
            exact (((List.prefix_append _ _).trans
              (List.prefix_append _ _)).trans
              (processToolCallsStream_events_of_eq hp)).trans (ih st4)

/-- At positive fuel the incremental loop first marks the endpoint call;
everything later extends the event log after it. -/
lemma chatStreamLoop_events_head (db : ToolStore) (env : OrcEnv) (u : Bool)
    (fuel : ℕ) (st : StreamState) :
    (st.events ++ [StreamEvent.endpointCall st.messages st.tools]) <+:
      (OllamaClient.chatStreamLoop db env u (fuel + 1) st).1.events := by
  simp only [OllamaClient.chatStreamLoop]
  split
  · exact List.prefix_rfl
  · rename_i m hm
    by_cases hcont : (m.content == "") = true
    · simp only [if_pos hcont]
      split
      · exact List.prefix_rfl
      · split
        next st4 e hp => exact processToolCallsStream_events_of_eq hp
        next st4 hp =>
          exact (processToolCallsStream_events_of_eq hp).trans
            (chatStreamLoop_events_extend db env u fuel st4)
    · simp only [if_neg hcont]
      split
      · exact List.prefix_append _ _
      · split
        next st4 e hp =>
          exact (List.prefix_append _ _).trans
            (processToolCallsStream_events_of_eq hp)
        next st4 hp =>
          exact ((List.prefix_append _ _).trans
            (processToolCallsStream_events_of_eq hp)).trans
            (chatStreamLoop_events_extend db env u fuel st4)

/-- One full iteration of the buffered loop, given the model's response
and the result of processing its tool calls. -/
lemma chatLoop_step (db : ToolStore) (env : OrcEnv) (fuel : ℕ)
    (st st3 : ChatState) (m : Message)
    (hm : env.model st.messages st.tools = Except.ok m)
    (hne : m.tool_calls.isEmpty = false)
    (hp : processToolCalls db env m.tool_calls
      { messages := st.messages ++ [m], tools := st.tools,
        effects := st.effects,
        requests := st.requests ++ [(st.messages, st.tools)] } = (st3, none)) :
    OllamaClient.chatLoop db env true (fuel + 1) st =
      OllamaClient.chatLoop db env true fuel st3 := by
  simp only [OllamaClient.chatLoop, hm, hne, Bool.not_true, Bool.false_or, hp]
  rfl

/-- One full iteration of the incremental loop. -/
lemma chatStreamLoop_step (db : ToolStore) (env : OrcEnv) (fuel : ℕ)
    (st st4 : StreamState) (m : Message)
    (hm : env.model st.messages st.tools = Except.ok m)
    (hne : m.tool_calls.isEmpty = false)
    (hp : processToolCallsStream db env m.tool_calls
      { messages := st.messages ++ [m], tools := st.tools,
        effects := st.effects,
        events :=
          (st.events ++ [StreamEvent.endpointCall st.messages st.tools]) ++
            (if (m.content == "") = true then []
             else [StreamEvent.content m.content]) } = (st4, none)) :
    OllamaClient.chatStreamLoop db env true (fuel + 1) st =
      OllamaClient.chatStreamLoop db env true fuel st4 := by
  by_cases hcont : (m.content == "") = true
  · simp only [if_pos hcont, List.append_nil] at hp
    simp only [OllamaClient.chatStreamLoop, hm, hne, Bool.not_true,
      Bool.false_or, if_pos hcont, hp]
    rfl
  · simp only [if_neg hcont] at hp
    simp only [OllamaClient.chatStreamLoop, hm, hne, Bool.not_true,
      Bool.false_or, if_neg hcont, hp]
    rfl

/-- `C6` confirmed: when the exchange starts with the bootstrap-only
catalog and the model's first response is a single
`tool_retriever(intent_category=c)` call (with a truthy category), then —
with `N` the number of active tools of that category — (i) the catalog of
the second endpoint request is exactly the bootstrap tool followed by those
`N` discovered tools, (ii) that catalog has `N + 1` entries, (iii) the
retriever's result reported `tools_count = N`, and (iv) in incremental
mode a `tools_discovered` event with `count = N` is emitted after the
`tool_call` event and before the second endpoint call. -/
theorem discovery_catalog_c6 (db : ToolStore) (env : OrcEnv)
    (c cont : String) (msgs : List Message) (k : ℕ) (hc : c ≠ "")
    (hm : env.model msgs (some [ToolRegistry.get_tool_retriever]) =
      Except.ok ⟨"assistant", cont, [⟨"tool_retriever", some c, none⟩]⟩) :
    ((OllamaClient.chat db env true (k + 2) msgs).2.requests[1]?).map
        Prod.snd =
      some (some (ToolRegistry.get_tool_retriever ::
        ToolRegistry.get_tools_as_ollama_list db (some c))) ∧
    (ToolRegistry.get_tool_retriever ::
        ToolRegistry.get_tools_as_ollama_list db (some c)).length =
      (ToolRegistry.get_tools_as_ollama_list db (some c)).length + 1 ∧
    jlookup (tool_retriever db (some c) none) "tools_count" =
      some (JVal.num
        (ToolRegistry.get_tools_as_ollama_list db (some c)).length) ∧
    (∃ tail,
      (OllamaClient.chat_stream db env true (k + 2) msgs).1.events =
        [StreamEvent.endpointCall msgs
            (some [ToolRegistry.get_tool_retriever])] ++
        (if (cont == "") = true then [] else [StreamEvent.content cont]) ++
        [StreamEvent.toolCall "tool_retriever" (some c) none,
         StreamEvent.toolsDiscovered
           (ToolRegistry.get_tools_as_ollama_list db (some c)).length
           ((ToolRegistry.get_tools_as_ollama_list db (some c)).map
             OllamaTool.name),
         StreamEvent.toolResult "tool_retriever"
           (tool_retriever db (some c) none),
         StreamEvent.endpointCall
           (msgs ++
             [⟨"assistant", cont, [⟨"tool_retriever", some c, none⟩]⟩,
              ⟨"tool", jdump (tool_retriever db (some c) none), []⟩])
           (some (ToolRegistry.get_tool_retriever ::
             ToolRegistry.get_tools_as_ollama_list db (some c)))] ++
        tail) := by
  have hd := discover_category db c hc
  refine ⟨?_, by simp, ?_, ?_⟩
  · -- (i): the second buffered request
    have hp : processToolCalls db env [⟨"tool_retriever", some c, none⟩]
        { messages := msgs ++
            [⟨"assistant", cont, [⟨"tool_retriever", some c, none⟩]⟩],
          tools := some [ToolRegistry.get_tool_retriever],
          effects := ⟨[], []⟩,
          requests := [(msgs, some [ToolRegistry.get_tool_retriever])] } =
        ({ messages := (msgs ++
              [⟨"assistant", cont, [⟨"tool_retriever", some c, none⟩]⟩]) ++
              [⟨"tool", jdump (tool_retriever db (some c) none), []⟩],
            tools := some (ToolRegistry.get_tool_retriever ::
              ToolRegistry.get_tools_as_ollama_list db (some c)),
            effects := ⟨[], []⟩,
            requests := [(msgs, some [ToolRegistry.get_tool_retriever])] },
         none) := by
      simp only [processToolCalls, execute_tool_retriever,
        resultSuccess_tool_retriever, hd]
      rfl
    have hchat : OllamaClient.chat db env true (k + 2) msgs =
        OllamaClient.chatLoop db env true (k + 1)
          { messages := (msgs ++
              [⟨"assistant", cont, [⟨"tool_retriever", some c, none⟩]⟩]) ++
              [⟨"tool", jdump (tool_retriever db (some c) none), []⟩],
            tools := some (ToolRegistry.get_tool_retriever ::
              ToolRegistry.get_tools_as_ollama_list db (some c)),
            effects := ⟨[], []⟩,
            requests := [(msgs, some [ToolRegistry.get_tool_retriever])] } :=
      chatLoop_step db env (k + 1)
        ⟨msgs, some [ToolRegistry.get_tool_retriever], ⟨[], []⟩, []⟩ _
        ⟨"assistant", cont, [⟨"tool_retriever", some c, none⟩]⟩ hm rfl hp
    obtain ⟨t, ht⟩ := chatLoop_requests_head db env true k
      { messages := (msgs ++
          [⟨"assistant", cont, [⟨"tool_retriever", some c, none⟩]⟩]) ++
          [⟨"tool", jdump (tool_retriever db (some c) none), []⟩],
        tools := some (ToolRegistry.get_tool_retriever ::
          ToolRegistry.get_tools_as_ollama_list db (some c)),
        effects := ⟨[], []⟩,
        requests := [(msgs, some [ToolRegistry.get_tool_retriever])] }
    rw [hchat, ht]
    simp
  · -- (iii): the retriever result reports N
    simp only [tool_retriever, jlookup,
      ToolRegistry.get_tools_as_ollama_list, strTruthy, if_neg hc]
    simp [List.lookup]
  · -- (iv): incremental events
    have hpS : processToolCallsStream db env
        [⟨"tool_retriever", some c, none⟩]
        { messages := msgs ++
            [⟨"assistant", cont, [⟨"tool_retriever", some c, none⟩]⟩],
          tools := some [ToolRegistry.get_tool_retriever],
          effects := ⟨[], []⟩,
          events := ([StreamEvent.endpointCall msgs
              (some [ToolRegistry.get_tool_retriever])]) ++
            (if (cont == "") = true then []
             else [StreamEvent.content cont]) } =
        ({ messages := (msgs ++
              [⟨"assistant", cont, [⟨"tool_retriever", some c, none⟩]⟩]) ++
              [⟨"tool", jdump (tool_retriever db (some c) none), []⟩],
            tools := some (ToolRegistry.get_tool_retriever ::
              ToolRegistry.get_tools_as_ollama_list db (some c)),
            effects := ⟨[], []⟩,
            events := (([StreamEvent.endpointCall msgs
                (some [ToolRegistry.get_tool_retriever])] ++
              (if (cont == "") = true then []
               else [StreamEvent.content cont])) ++
              [StreamEvent.toolCall "tool_retriever" (some c) none]) ++
              [StreamEvent.toolsDiscovered
                 (ToolRegistry.get_tools_as_ollama_list db (some c)).length
                 ((ToolRegistry.get_tools_as_ollama_list db (some c)).map
                   OllamaTool.name),
               StreamEvent.toolResult "tool_retriever"
                 (tool_retriever db (some c) none)] },
         none) := by
      simp only [processToolCallsStream, execute_tool_retriever,
        resultSuccess_tool_retriever, hd]
      rfl
    have hloopS : OllamaClient.chatStreamLoop db env true (k + 2)
        ⟨msgs, some [ToolRegistry.get_tool_retriever], ⟨[], []⟩, []⟩ =
        OllamaClient.chatStreamLoop db env true (k + 1)
          { messages := (msgs ++
              [⟨"assistant", cont, [⟨"tool_retriever", some c, none⟩]⟩]) ++
              [⟨"tool", jdump (tool_retriever db (some c) none), []⟩],
            tools := some (ToolRegistry.get_tool_retriever ::
              ToolRegistry.get_tools_as_ollama_list db (some c)),
            effects := ⟨[], []⟩,
            events := (([StreamEvent.endpointCall msgs
                (some [ToolRegistry.get_tool_retriever])] ++
              (if (cont == "") = true then []
               else [StreamEvent.content cont])) ++
              [StreamEvent.toolCall "tool_retriever" (some c) none]) ++
              [StreamEvent.toolsDiscovered
                 (ToolRegistry.get_tools_as_ollama_list db (some c)).length
                 ((ToolRegistry.get_tools_as_ollama_list db (some c)).map
                   OllamaTool.name),
               StreamEvent.toolResult "tool_retriever"
                 (tool_retriever db (some c) none)] } :=
      chatStreamLoop_step db env (k + 1)
        ⟨msgs, some [ToolRegistry.get_tool_retriever], ⟨[], []⟩, []⟩ _
        ⟨"assistant", cont, [⟨"tool_retriever", some c, none⟩]⟩ hm rfl hpS
    obtain ⟨u, hu⟩ := chatStreamLoop_events_head db env true k
      { messages := (msgs ++
          [⟨"assistant", cont, [⟨"tool_retriever", some c, none⟩]⟩]) ++
          [⟨"tool", jdump (tool_retriever db (some c) none), []⟩],
        tools := some (ToolRegistry.get_tool_retriever ::
          ToolRegistry.get_tools_as_ollama_list db (some c)),
        effects := ⟨[], []⟩,
        events := (([StreamEvent.endpointCall msgs
            (some [ToolRegistry.get_tool_retriever])] ++
          (if (cont == "") = true then []
           else [StreamEvent.content cont])) ++
          [StreamEvent.toolCall "tool_retriever" (some c) none]) ++
          [StreamEvent.toolsDiscovered
             (ToolRegistry.get_tools_as_ollama_list db (some c)).length
             ((ToolRegistry.get_tools_as_ollama_list db (some c)).map
               OllamaTool.name),
           StreamEvent.toolResult "tool_retriever"
             (tool_retriever db (some c) none)] }
    have hwrap : OllamaClient.chat_stream db env true (k + 2) msgs =
        match OllamaClient.chatStreamLoop db env true (k + 2)
            ⟨msgs, some [ToolRegistry.get_tool_retriever], ⟨[], []⟩, []⟩ with
        | (st, none) => (st, none)
        | (st, some e) =>
          ({ st with events :=
              st.events ++ [StreamEvent.content (connErrPrefix ++ e)] },
           some e) := rfl
    rw [hwrap, hloopS]
    cases hres : OllamaClient.chatStreamLoop db env true (k + 1)
        { messages := (msgs ++
            [⟨"assistant", cont, [⟨"tool_retriever", some c, none⟩]⟩]) ++
            [⟨"tool", jdump (tool_retriever db (some c) none), []⟩],
          tools := some (ToolRegistry.get_tool_retriever ::
            ToolRegistry.get_tools_as_ollama_list db (some c)),
          effects := ⟨[], []⟩,
          events := (([StreamEvent.endpointCall msgs
              (some [ToolRegistry.get_tool_retriever])] ++
            (if (cont == "") = true then []
             else [StreamEvent.content cont])) ++
            [StreamEvent.toolCall "tool_retriever" (some c) none]) ++
            [StreamEvent.toolsDiscovered
               (ToolRegistry.get_tools_as_ollama_list db (some c)).length
               ((ToolRegistry.get_tools_as_ollama_list db (some c)).map
                 OllamaTool.name),
             StreamEvent.toolResult "tool_retriever"
               (tool_retriever db (some c) none)] } with
    | mk stF oe =>
      rw [hres] at hu
      simp only at hu
      cases oe with
      | none =>
        refine ⟨u, ?_⟩
        simp only
        rw [← hu]
        simp
      | some e =>
        refine ⟨u ++ [StreamEvent.content (connErrPrefix ++ e)], ?_⟩
        simp only
        rw [← hu]
        simp

/-- A second wellbeing tool for the two-tool discovery witness. -/
def sampleScriptTool2 : ToolDefinition where
  name := "start_checkin"
  display_name := "Start Checkin"
  category := "wellbeing"
  description := "Begin a wellbeing check-in"
  execution_type := "script"
  script_path := "/opt/tools/start_checkin.py"
  script_timeout := 30
  lambda_function_arn := ""
  lambda_region := "us-east-1"
  webhook_url := ""
  webhook_method := "POST"
  webhook_headers := []
  webhook_timeout := 30
  parameters_schema := JVal.obj []
  is_active := true
  requires_auth := true

/-- Store with exactly two active wellbeing tools. -/
def c6Db : ToolStore := ⟨[sampleScriptTool, sampleScriptTool2]⟩

/-- Environment whose model always requests
`tool_retriever(intent_category="wellbeing")`. -/
def c6Env : OrcEnv :=
  { model := fun _ _ =>
      .ok ⟨"assistant", "", [⟨"tool_retriever", some "wellbeing", none⟩]⟩
    backendRun := fun _ => timeoutBackendRun
    execTime := fun _ => 0
    user_is_authenticated := true }

/-- Witness for `discovery_catalog_c6` on the concrete two-tool store
(`N = 2`, catalog of 3 on the second call). -/
theorem discovery_catalog_c6_witness :
    ((OllamaClient.chat c6Db c6Env true (0 + 2) []).2.requests[1]?).map
        Prod.snd =
      some (some (ToolRegistry.get_tool_retriever ::
        ToolRegistry.get_tools_as_ollama_list c6Db (some "wellbeing"))) ∧
    (ToolRegistry.get_tool_retriever ::
        ToolRegistry.get_tools_as_ollama_list c6Db (some "wellbeing")).length =
      (ToolRegistry.get_tools_as_ollama_list c6Db (some "wellbeing")).length + 1 ∧
    jlookup (tool_retriever c6Db (some "wellbeing") none) "tools_count" =
      some (JVal.num
        (ToolRegistry.get_tools_as_ollama_list c6Db (some "wellbeing")).length) ∧
    (∃ tail,
      (OllamaClient.chat_stream c6Db c6Env true (0 + 2) []).1.events =
        [StreamEvent.endpointCall []
            (some [ToolRegistry.get_tool_retriever])] ++
        (if (("" : String) == "") = true then []
         else [StreamEvent.content ""]) ++
        [StreamEvent.toolCall "tool_retriever" (some "wellbeing") none,
         StreamEvent.toolsDiscovered
           (ToolRegistry.get_tools_as_ollama_list c6Db (some "wellbeing")).length
           ((ToolRegistry.get_tools_as_ollama_list c6Db (some "wellbeing")).map
             OllamaTool.name),
         StreamEvent.toolResult "tool_retriever"
           (tool_retriever c6Db (some "wellbeing") none),
         StreamEvent.endpointCall
           (([] : List Message) ++
             [⟨"assistant", "",
               [⟨"tool_retriever", some "wellbeing", none⟩]⟩,
              ⟨"tool", jdump (tool_retriever c6Db (some "wellbeing") none), []⟩])
           (some (ToolRegistry.get_tool_retriever ::
             ToolRegistry.get_tools_as_ollama_list c6Db (some "wellbeing")))] ++
        tail) :=
  discovery_catalog_c6 c6Db c6Env "wellbeing" "" [] 0 (by decide) rfl

end LifePal
